import Mathlib

/-!
Verification development for the hermes-cli repository.

Shallow embedding of the parts of the code that the checked properties
concern: the tool registry and selection (`src/hermes_cli/tools.py`,
`ToolRegistry.select_tools`), the tool executor
(`ToolExecutor.execute_tool_call` / `execute_tool_calls`), the two
tool-calling loops (`_execute_with_tools` and `_execute_chat_with_tools`
in `src/hermes_cli/main.py`), and the keyword-argument interfaces of
`NousAPIClient.chat_completion` (`src/hermes_cli/api.py`) and
`ConversationManager.create_conversation` (`src/hermes_cli/chat.py`).

Conventions of the embedding:
* Python dict key access `d["k"]` on a possibly missing key is modelled
  by `Option` fields; `d.get("k", default)` is `Option.getD`.
* `json.loads` on the tool-argument string is an oracle parameter
  `JsonDecode : String → Except String JsonVal` (the `Except.error`
  carries `str(e)` of the `json.JSONDecodeError`); `json.dumps(v)` is
  modelled by tagging the structured value with `ToolContent.dumped`,
  so "the content string deserializes to v" is represented exactly.
* The try/except `json.loads`/`json.dumps(indent=2)` pretty-printing of
  final answers is an oracle `fmt : String → Option String` (`none`
  models `json.JSONDecodeError`).
* The Transport (`NousAPIClient.chat_completion` as stubbed in the
  repository's own tests) is an oracle `Nat → ApiResponse` giving the
  response to the i-th call of the loop.
* Python keyword-argument acceptance (a call with an unexpected keyword
  argument raises `TypeError`) is modelled by `pythonCallAccepts` over
  the literal parameter-name lists of the source functions.
-/

set_option autoImplicit false

namespace HermesCLI

/-- A JSON-representable Python value (dict/list/str/int/bool/None). -/
inductive JsonVal where
  | null
  | bool (b : Bool)
  | num (n : Int)
  | str (s : String)
  | arr (elems : List JsonVal)
  | obj (fields : List (String × JsonVal))
  deriving Inhabited

/-- The `content` field of a tool-result message, as built at
`tools.py:210-217`: either `json.dumps(result)` of a structured value
(kept in structured form so deserialization is exact), or the raw string
when the tool returned a `str`. -/
inductive ToolContent where
  | dumped (v : JsonVal)
  | rawstr (s : String)

/-- The tool message dict returned by `execute_tool_call`
(`tools.py:219-224`). -/
structure ToolMsg where
  role : String
  tool_call_id : String
  name : String
  content : ToolContent

/-- The nested `"function"` dict of a tool-call request; `none` fields
model missing keys. -/
structure RawFunc where
  name? : Option String
  arguments? : Option String
  deriving Repr, DecidableEq

/-- A tool-call request dict from an API response (`tools.py:173-181`);
`none` fields model missing keys. -/
structure RawToolCall where
  id? : Option String
  function? : Option RawFunc
  deriving Repr, DecidableEq

/-- Outcome of calling a Python tool handler `tool_func(**args)`:
normal return value, a raised `TypeError`, or any other raised
exception. -/
inductive ToolOutcome where
  | ok (v : JsonVal)
  | typeError (msg : String)
  | exn (msg : String)

/-- A registered tool handler, as stored in the `selected_tools` dict. -/
def ToolFun : Type := List (String × JsonVal) → ToolOutcome

/-- The `selected_tools` dict passed to the executor. -/
def SelectedTools : Type := List (String × ToolFun)

/-- Oracle for `json.loads` on an arguments string. -/
def JsonDecode : Type := String → Except String JsonVal

/-- `tool_func(**args)`: unpacking a non-dict raises `TypeError`,
otherwise the handler runs on the keyword dict. -/
def runToolFunc (f : ToolFun) (args : JsonVal) : ToolOutcome :=
  match args with
  | .obj kvs => f kvs
  | _ => .typeError "argument after ** must be a mapping"

/-- The try/except body of `execute_tool_call` (`tools.py:197-217`):
parse the arguments, check the selection, run the handler; every
exception is absorbed into an error-payload content string. -/
def toolCallContent (decode : JsonDecode) (selected : SelectedTools)
    (funcName argsJson : String) : ToolContent :=
  match decode argsJson with
  | .error e => .dumped (.obj [("error", .str ("Invalid arguments JSON: " ++ e))])
  | .ok args =>
    match selected.lookup funcName with
    | none =>
      .dumped (.obj [("error", .str
        ("Tool execution failed: Tool \x27" ++ funcName ++ "\x27 not in enabled tools"))])
    | some f =>
      match runToolFunc f args with
      | .ok (.str s) => .rawstr s
      | .ok v => .dumped v
      | .typeError m => .dumped (.obj [("error", .str ("Invalid arguments for tool: " ++ m))])
      | .exn m => .dumped (.obj [("error", .str ("Tool execution failed: " ++ m))])

/-- `ToolExecutor.execute_tool_call` (`tools.py:169-224`). The reads of
`tool_call["id"]`, `tool_call["function"]["name"]` and
`tool_call["function"]["arguments"]` happen before the try block, in
that order, so a missing key raises `KeyError` (modelled as
`Except.error` naming the key) instead of producing a result. -/
def execute_tool_call (decode : JsonDecode) (selected : SelectedTools)
    (tc : RawToolCall) : Except String ToolMsg :=
  match tc.id? with
  | none => .error "id"
  | some tid =>
    match tc.function? with
    | none => .error "function"
    | some f =>
      match f.name? with
      | none => .error "name"
      | some funcName =>
        match f.arguments? with
        | none => .error "arguments"
        | some argsJson =>
          .ok { role := "tool", tool_call_id := tid, name := funcName,
                content := toolCallContent decode selected funcName argsJson }

/-- `ToolExecutor.execute_tool_calls` (`tools.py:226-236`): a list
comprehension; the first escaping exception aborts the whole batch. -/
def execute_tool_calls (decode : JsonDecode) (selected : SelectedTools) :
    List RawToolCall → Except String (List ToolMsg)
  | [] => .ok []
  | tc :: rest =>
    match execute_tool_call decode selected tc with
    | .error e => .error e
    | .ok r =>
      match execute_tool_calls decode selected rest with
      | .error e => .error e
      | .ok rs => .ok (r :: rs)

/-- A request envelope is well-shaped when all four keys read before the
try block are present. -/
def RawToolCall.wellShaped (tc : RawToolCall) : Bool :=
  tc.id?.isSome &&
    (match tc.function? with
     | some f => f.name?.isSome && f.arguments?.isSome
     | none => false)

/-- The function name read by the loops' display step
`tc["function"]["name"]` (`main.py:76` and `main.py:175`); `none` means
that read raises `KeyError`. -/
def RawToolCall.displayName? (tc : RawToolCall) : Option String :=
  tc.function?.bind (fun f => f.name?)

/-! ### Python keyword-argument interfaces

A Python call `f(k1=v1, ..., kn=vn)` on a function without `**kwargs`
raises `TypeError` unless every keyword matches a declared parameter
name. -/

/-- Whether a keyword-argument call is accepted by a Python function
with the given (non-self) parameter names. -/
def pythonCallAccepts (paramNames kwargNames : List String) : Bool :=
  kwargNames.all (fun k => paramNames.contains k)

/-- Parameter names of `NousAPIClient.chat_completion` (`api.py:46-53`). -/
def chat_completion_params : List String :=
  ["messages", "model", "temperature", "max_tokens", "stream"]

/-- Keyword arguments passed to `client.chat_completion` by both
tool-calling loops (`main.py:48-55` and `main.py:153-160`), including
`tools=tool_schemas` and `stream=False`. -/
def toolLoopRequestKwargs : List String :=
  ["messages", "model", "temperature", "max_tokens", "stream", "tools"]

/-- Parameter names of `ConversationManager.create_conversation`
(`chat.py:60-69`). -/
def create_conversation_params : List String :=
  ["name", "initial_message", "system_prompt", "model", "temperature",
   "max_tokens", "schema"]

/-- Keyword arguments passed to `conv_manager.create_conversation` by the
`chat` command (`main.py:523-532`), including `tools_config=...`. -/
def chatCreateConversationKwargs : List String :=
  ["name", "initial_message", "system_prompt", "model", "temperature",
   "max_tokens", "schema", "tools_config"]

/-- Top-level keys of the conversation record written by
`create_conversation` (`chat.py:94-103`). -/
def conversationRecordKeys : List String :=
  ["name", "created_at", "updated_at", "model", "temperature",
   "max_tokens", "schema", "messages"]

/-! ### Tool registry and selection (`tools.py:52-104`) -/

/-- A registered tool as the selection logic sees it (the handler itself
is irrelevant to selection; the description comes from the `@tool`
decorator). -/
structure ToolDef where
  description : String
  deriving Repr, DecidableEq

/-- A Python-dict-style key/value store over an association list:
assignment `d[k] = v` updates an existing key in place, otherwise
appends at the end (insertion order). -/
def dictInsert {α : Type} (l : List (String × α)) (k : String) (v : α) :
    List (String × α) :=
  if l.any (fun p => p.1 == k) then
    l.map (fun p => if p.1 == k then (k, v) else p)
  else
    l ++ [(k, v)]

/-- Python `str.split(",")` on the character list: split at every comma,
keeping empty segments. -/
def splitOnCommaAux : List Char → List Char → List (List Char)
  | [], acc => [acc.reverse]
  | c :: cs, acc =>
    if c == ',' then acc.reverse :: splitOnCommaAux cs []
    else splitOnCommaAux cs (c :: acc)

/-- Whitespace as stripped by Python `str.strip()` (the characters that
occur in tool specs). -/
def isSpaceChar (c : Char) : Bool :=
  c == ' ' || c == '\t' || c == '\n' || c == '\r'

/-- Drop leading whitespace characters. -/
def dropLeadingSpaces : List Char → List Char
  | [] => []
  | c :: cs => if isSpaceChar c then dropLeadingSpaces cs else c :: cs

/-- Python `str.strip()`: drop whitespace at both ends. -/
def pyStrip (s : String) : String :=
  ⟨(dropLeadingSpaces (dropLeadingSpaces s.data).reverse).reverse⟩

/-- `[name.strip() for name in tool_spec.split(",")]` (`tools.py:93`). -/
def parseToolSpec (spec : String) : List String :=
  (splitOnCommaAux spec.data []).map (fun cs => pyStrip ⟨cs⟩)

/-- Code-point comparison of strings, the order Python `sorted` uses. -/
def strLe : List Char → List Char → Bool
  | [], _ => true
  | _ :: _, [] => false
  | a :: as, b :: bs =>
    if a.toNat < b.toNat then true
    else if a.toNat == b.toNat then strLe as bs
    else false

/-- Insertion into a sorted list of strings. -/
def sortedInsert (s : String) : List String → List String
  | [] => [s]
  | t :: ts => if strLe s.data t.data then s :: t :: ts else t :: sortedInsert s ts

/-- `sorted(...)` over strings. -/
def sortStrings (l : List String) : List String := l.foldr sortedInsert []

/-- `", ".join(sorted(self.tools.keys()))` (`tools.py:96`). -/
def availableToolsStr (tools : List (String × ToolDef)) : String :=
  String.intercalate ", " (sortStrings (tools.map Prod.fst))

/-- The `ValueError` message raised for an unknown tool name
(`tools.py:97-101`). -/
def unknownToolMsg (tools : List (String × ToolDef)) (name : String) : String :=
  "Unknown tool: \x27" ++ name ++ "\x27\n" ++
  "Available tools: " ++ availableToolsStr tools ++ "\n" ++
  "Use \x27hermes tools list\x27 to see all tools"

/-- The `for name in tool_names` loop of `select_tools`
(`tools.py:94-102`), accumulating into the `selected` dict and raising
at the first unknown name. -/
def selectNames (tools : List (String × ToolDef)) :
    List String → List (String × ToolDef) → Except String (List (String × ToolDef))
  | [], selected => .ok selected
  | n :: rest, selected =>
    match tools.lookup n with
    | none => .error (unknownToolMsg tools n)
    | some d => selectNames tools rest (dictInsert selected n d)

/-- `ToolRegistry.select_tools` (`tools.py:76-104`). -/
def select_tools (tools : List (String × ToolDef)) (spec : String) :
    Except String (List (String × ToolDef)) :=
  if spec == "all" then .ok tools
  else selectNames tools (parseToolSpec spec) []

/-- The registry contents after `_load_builtin_tools` (`tools.py:60-74`,
insertion order from the list at `tools.py:71`; names and descriptions
from the `@tool` decorators in `builtin_tools/`). -/
def registry_tools : List (String × ToolDef) :=
  [("calculate",
    ⟨"Perform mathematical calculations. Supports basic arithmetic, sqrt, abs, min, max, pow, and common math functions."⟩),
   ("execute_shell_command",
    ⟨"Execute a shell command and return its output. Use with caution. Has a 30 second timeout."⟩),
   ("read_file",
    ⟨"Read the contents of a file. Maximum file size is 1MB."⟩),
   ("write_file",
    ⟨"Write content to a file. Creates parent directories if needed."⟩),
   ("web_search",
    ⟨"Search the web using Google search and return results including titles, links, and snippets."⟩)]

/-! ### The two tool-calling loops (`main.py:45-116` and
`main.py:151-221`)

The loops are driven by the Transport's responses. Response dicts are
modelled with `Option` fields for possibly-missing keys, exactly the
accesses the code makes: `response["choices"]` guarded by a membership
test, `choice.get("finish_reason")`, `choice.get("message", {})`,
`message.get("tool_calls", [])`, `message.get("content", "")`. -/

/-- The `message` dict of a choice. -/
structure RespMsg where
  content? : Option String
  toolCalls? : Option (List RawToolCall)

/-- One element of `response["choices"]`. -/
structure Choice where
  finish? : Option String
  message? : Option RespMsg

/-- A non-streaming response object. `choices? = none` models a missing
`"choices"` key. -/
structure ApiResponse where
  choices? : Option (List Choice)

/-- The Transport oracle: the response returned by the i-th
`chat_completion` call of a loop run (the repository's own tests stub
the client exactly this way). -/
def Transport : Type := Nat → ApiResponse

/-- The top-level branch a loop iteration takes on a response. -/
inductive LoopBranch where
  | toolCallsBranch
  | finalBranch
  deriving Repr, DecidableEq

/-- How a loop invocation ends. `finalAnswer raw displayed` records the
assistant content as read from the message and the string actually
echoed; `maxedOut` is falling off the iteration range and printing the
limit warning; `emptyToolCallsBreak` is the stateless loop's anomaly
report + `break`; `noChoicesExit` is the `sys.exit(1)` on a missing or
empty `choices` list; `exnExit` is the stateless loop's catch-all
`except Exception` + `sys.exit(1)`; `exnRaise` is an exception
propagating out of the chat-variant loop (which has no catch-all). -/
inductive LoopOutcome where
  | finalAnswer (raw displayed : String)
  | maxedOut
  | emptyToolCallsBreak
  | noChoicesExit
  | exnExit
  | exnRaise
  deriving Repr, DecidableEq

/-- The observable behavior of one loop run: how many Transport calls
were made, which branch each completed iteration took, and the
outcome. -/
structure LoopTrace where
  calls : Nat
  branches : List LoopBranch
  outcome : LoopOutcome
  deriving Repr, DecidableEq

/-- A message as persisted by the chat variant: the assistant response
dict appended verbatim (`main.py:180`), a tool result (`main.py:188`),
or the final `{"role": "assistant", "content": content}` dict
(`main.py:212`). -/
inductive SavedMsg where
  | fromResponse (m : RespMsg)
  | toolResult (t : ToolMsg)
  | assistantFinal (content : String)

/-- The schema-driven display formatting of final content
(`main.py:93-98` and `main.py:196-203`): attempted only when a schema
is configured and the content is truthy; on parse failure the raw text
is used. -/
def displayedContent (schemaPresent : Bool) (fmt : String → Option String)
    (content : String) : String :=
  if schemaPresent && !(content == "") then
    match fmt content with
    | some pretty => pretty
    | none => content
  else content

/-- One run of the stateless loop body `for iteration in range(max_calls)`
(`main.py:45-116`), recursing on the remaining iteration budget.
Per iteration, in source order: Transport call; `choices` presence
check (`main.py:58-60`, exit); on `finish_reason == "tool_calls"`:
empty-list anomaly check (`main.py:70-72`, report + break), the
display loop reading `tc["function"]["name"]` (`main.py:75-77`, a
`KeyError` is caught by the catch-all at `main.py:111-113` and exits),
then `execute_tool_calls` (same catch-all on escape) and loop;
otherwise the final-answer branch displays and returns
(`main.py:88-106`). Falling off the range prints the limit warning
(`main.py:116`). The running message list is threaded in the source but
cannot influence this model because the Transport is an oracle over the
call index. -/
def statelessGo (T : Transport) (decode : JsonDecode) (selected : SelectedTools)
    (schemaPresent : Bool) (fmt : String → Option String) :
    Nat → Nat → Nat → List LoopBranch → LoopTrace
  | _, 0, calls, branches => ⟨calls, branches.reverse, .maxedOut⟩
  | i, remaining + 1, calls, branches =>
    match (T i).choices? with
    | none => ⟨calls + 1, branches.reverse, .noChoicesExit⟩
    | some [] => ⟨calls + 1, branches.reverse, .noChoicesExit⟩
    | some (choice :: _) =>
      let msg := choice.message?.getD ⟨none, none⟩
      if choice.finish? == some "tool_calls" then
        let tcs := msg.toolCalls?.getD []
        if tcs.isEmpty then
          ⟨calls + 1, (LoopBranch.toolCallsBranch :: branches).reverse,
           .emptyToolCallsBreak⟩
        else if tcs.all (fun tc => tc.displayName?.isSome) then
          match execute_tool_calls decode selected tcs with
          | .error _ =>
            ⟨calls + 1, (LoopBranch.toolCallsBranch :: branches).reverse, .exnExit⟩
          | .ok _ =>
            statelessGo T decode selected schemaPresent fmt (i + 1) remaining
              (calls + 1) (LoopBranch.toolCallsBranch :: branches)
        else
          ⟨calls + 1, (LoopBranch.toolCallsBranch :: branches).reverse, .exnExit⟩
      else
        let raw := msg.content?.getD ""
        ⟨calls + 1, (LoopBranch.finalBranch :: branches).reverse,
         .finalAnswer raw (displayedContent schemaPresent fmt raw)⟩

/-- `_execute_with_tools` (`main.py:45-116`): the stateless loop. -/
def run_execute_with_tools (T : Transport) (decode : JsonDecode)
    (selected : SelectedTools) (schemaPresent : Bool)
    (fmt : String → Option String) (maxCalls : Nat) : LoopTrace :=
  statelessGo T decode selected schemaPresent fmt 0 maxCalls 0 []

/-- One run of the chat-variant loop body (`main.py:151-221`), also
returning the list of messages persisted to the conversation store.
Differences from the stateless body, all from the source: there is no
empty-tool-calls check (an empty list just produces zero results and
the loop continues); the assistant message and the tool results are
appended to the store and saved (`main.py:179-190`); escaping
exceptions are not caught (only `APIError` is, `main.py:217-219`), so
they propagate (`exnRaise`); the final branch computes a separate
`display_content` and persists the raw `content` (`main.py:194-213`). -/
def chatGo (T : Transport) (decode : JsonDecode) (selected : SelectedTools)
    (schemaPresent : Bool) (fmt : String → Option String) :
    Nat → Nat → Nat → List LoopBranch → List SavedMsg → LoopTrace × List SavedMsg
  | _, 0, calls, branches, saved => (⟨calls, branches.reverse, .maxedOut⟩, saved)
  | i, remaining + 1, calls, branches, saved =>
    match (T i).choices? with
    | none => (⟨calls + 1, branches.reverse, .noChoicesExit⟩, saved)
    | some [] => (⟨calls + 1, branches.reverse, .noChoicesExit⟩, saved)
    | some (choice :: _) =>
      let msg := choice.message?.getD ⟨none, none⟩
      if choice.finish? == some "tool_calls" then
        let tcs := msg.toolCalls?.getD []
        if tcs.all (fun tc => tc.displayName?.isSome) then
          match execute_tool_calls decode selected tcs with
          | .error _ =>
            (⟨calls + 1, (LoopBranch.toolCallsBranch :: branches).reverse,
              .exnRaise⟩, saved)
          | .ok results =>
            chatGo T decode selected schemaPresent fmt (i + 1) remaining
              (calls + 1) (LoopBranch.toolCallsBranch :: branches)
              (saved ++ SavedMsg.fromResponse msg :: results.map SavedMsg.toolResult)
        else
          (⟨calls + 1, (LoopBranch.toolCallsBranch :: branches).reverse,
            .exnRaise⟩, saved)
      else
        let raw := msg.content?.getD ""
        (⟨calls + 1, (LoopBranch.finalBranch :: branches).reverse,
          .finalAnswer raw (displayedContent schemaPresent fmt raw)⟩,
         saved ++ [SavedMsg.assistantFinal raw])

/-- `_execute_chat_with_tools` (`main.py:151-221`): the
conversation-persisting loop. The second component is the sequence of
messages appended to the persisted conversation during the run. -/
def run_execute_chat_with_tools (T : Transport) (decode : JsonDecode)
    (selected : SelectedTools) (schemaPresent : Bool)
    (fmt : String → Option String) (maxCalls : Nat) : LoopTrace × List SavedMsg :=
  chatGo T decode selected schemaPresent fmt 0 maxCalls 0 [] []

/-- A response whose single observed choice signals `tool_calls` with a
non-empty list of well-shaped requests (the "Transport stub that always
returns finish=tool_calls with a valid request" of the spec). -/
def goodToolCallsResp (r : ApiResponse) : Bool :=
  match r.choices? with
  | some (c :: _) =>
    c.finish? == some "tool_calls" &&
      (let tcs := (c.message?.getD ⟨none, none⟩).toolCalls?.getD []
       !tcs.isEmpty && tcs.all RawToolCall.wellShaped)
  | _ => false

/-- A response whose single observed choice signals `tool_calls` with an
empty request list (the protocol anomaly). -/
def isEmptyToolCallsResp (r : ApiResponse) : Bool :=
  match r.choices? with
  | some (c :: _) =>
    c.finish? == some "tool_calls" &&
      ((c.message?.getD ⟨none, none⟩).toolCalls?.getD []).isEmpty
  | _ => false

/-- A response that triggers neither the empty-tool-calls anomaly nor a
malformed tool-call envelope: every `tool_calls` response carries a
non-empty, well-shaped request list. -/
def benignResp (r : ApiResponse) : Bool :=
  match r.choices? with
  | some (c :: _) =>
    if c.finish? == some "tool_calls" then
      let tcs := (c.message?.getD ⟨none, none⟩).toolCalls?.getD []
      !tcs.isEmpty && tcs.all RawToolCall.wellShaped
    else true
  | _ => true

/-! ### Concrete fixtures for witnesses and counterexamples -/

/-- A decode oracle: one recognized arguments string, everything else a
parse failure (mirroring `json.loads` on the test payloads). -/
def oracleDecode : JsonDecode := fun s =>
  if s == "ok-args" then .ok (.obj [("expression", .str "2 + 2")])
  else .error "Expecting value: line 1 column 1 (char 0)"

/-- A handler standing in for the `calculate` builtin on `2 + 2`. -/
def calcTool : ToolFun := fun _ => .ok (.obj [("result", .num 4)])

/-- Selection containing only `calculate`, as in the repository tests. -/
def oracleSelected : SelectedTools := [("calculate", calcTool)]

/-- A well-shaped tool-call request envelope. -/
def sampleToolCall : RawToolCall :=
  ⟨some "call_123", some ⟨some "calculate", some "ok-args"⟩⟩

/-- A second well-shaped request envelope. -/
def sampleToolCall2 : RawToolCall :=
  ⟨some "call_456", some ⟨some "web_search", some "ok-args"⟩⟩

/-- A response with finish `tool_calls` and one valid request. -/
def goodResp : ApiResponse :=
  ⟨some [⟨some "tool_calls", some ⟨none, some [sampleToolCall]⟩⟩]⟩

/-- The protocol anomaly: finish `tool_calls` with an empty request
list. -/
def emptyToolCallsApiResp : ApiResponse :=
  ⟨some [⟨some "tool_calls", some ⟨none, some []⟩⟩]⟩

/-- A final-content response with finish `stop`. -/
def finalResp (content : String) : ApiResponse :=
  ⟨some [⟨some "stop", some ⟨some content, none⟩⟩]⟩

/-- A formatting oracle on which every parse fails. -/
def noFmt : String → Option String := fun _ => none

/-- A formatting oracle that pretty-prints exactly the string "[1]". -/
def prettyFmt : String → Option String := fun s =>
  if s == "[1]" then some "[\n  1\n]" else none

/-- A transport returning one tool-call response and then final
answers. -/
def twoStepTransport : Transport := fun i =>
  if i == 0 then goodResp else finalResp "The answer is 4."

/-- A transport that always answers with a valid tool-calls response. -/
def constGoodTransport : Transport := fun _ => goodResp

/-- A transport that always answers with the empty-tool-calls anomaly. -/
def constEmptyTransport : Transport := fun _ => emptyToolCallsApiResp

/-- A transport that always answers with final content "[1]". -/
def finalOnlyTransport : Transport := fun _ => finalResp "[1]"

/-! ## Helper lemmas about the executor -/

/-- A well-shaped envelope decomposes into its three present fields. -/
theorem wellShaped_elim (tc : RawToolCall) (h : tc.wellShaped = true) :
    ∃ tid fname args, tc = ⟨some tid, some ⟨some fname, some args⟩⟩ := by
  obtain ⟨tid?, fn?⟩ := tc
  cases tid? with
  | none => simp [RawToolCall.wellShaped] at h
  | some tid =>
    cases fn? with
    | none => simp [RawToolCall.wellShaped] at h
    | some f =>
      obtain ⟨n?, a?⟩ := f
      cases n? with
      | none => simp [RawToolCall.wellShaped] at h
      | some n =>
        cases a? with
        | none => simp [RawToolCall.wellShaped] at h
        | some a => exact ⟨tid, n, a, rfl⟩

/-- On a well-shaped envelope the executor returns the tool message built
from the envelope's own id and name. -/
theorem execute_tool_call_of_wellShaped (decode : JsonDecode)
    (selected : SelectedTools) (tc : RawToolCall) (h : tc.wellShaped = true) :
    ∃ tid fname args,
      tc.id? = some tid ∧ tc.displayName? = some fname ∧
      execute_tool_call decode selected tc =
        .ok ⟨"tool", tid, fname, toolCallContent decode selected fname args⟩ := by
  obtain ⟨tid, fname, args, rfl⟩ := wellShaped_elim tc h
  exact ⟨tid, fname, args, rfl, rfl, rfl⟩

/-- `execute_tool_calls` on a batch of well-shaped envelopes: one result
per request, ids and names correlated positionally. -/
theorem execute_tool_calls_spec (decode : JsonDecode) (selected : SelectedTools) :
    ∀ tcs : List RawToolCall, (∀ tc ∈ tcs, tc.wellShaped = true) →
    ∃ rs, execute_tool_calls decode selected tcs = .ok rs ∧
      rs.length = tcs.length ∧
      ∀ i, (h1 : i < tcs.length) → (h2 : i < rs.length) →
        (rs.get ⟨i, h2⟩).role = "tool" ∧
        (tcs.get ⟨i, h1⟩).id? = some (rs.get ⟨i, h2⟩).tool_call_id ∧
        (tcs.get ⟨i, h1⟩).displayName? = some (rs.get ⟨i, h2⟩).name := by
  intro tcs
  induction tcs with
  | nil =>
    intro _
    exact ⟨[], rfl, rfl, fun i h1 _ => absurd h1 (Nat.not_lt_zero i)⟩
  | cons tc rest ih =>
    intro hall
    obtain ⟨tid, fname, args, hid, hname, hexec⟩ :=
      execute_tool_call_of_wellShaped decode selected tc
        (hall tc (List.mem_cons_self tc rest))
    obtain ⟨rs, hrs, hlen, hcorr⟩ :=
      ih (fun t ht => hall t (List.mem_cons_of_mem tc ht))
    refine ⟨⟨"tool", tid, fname, toolCallContent decode selected fname args⟩ :: rs,
      ?_, by simp [hlen], ?_⟩
    · simp only [execute_tool_calls, hexec, hrs]
    · intro i h1 h2
      cases i with
      | zero => exact ⟨rfl, by simpa using hid, by simpa using hname⟩
      | succ j =>
        have hj1 : j < rest.length := by simpa using h1
        have hj2 : j < rs.length := by simpa using h2
        simpa using hcorr j hj1 hj2

/-- Batch form used by the loop lemmas: a batch that passes
`List.all wellShaped` executes without an escaping exception. -/
theorem execute_tool_calls_ok_of_all (decode : JsonDecode)
    (selected : SelectedTools) (tcs : List RawToolCall)
    (h : tcs.all RawToolCall.wellShaped = true) :
    ∃ rs, execute_tool_calls decode selected tcs = .ok rs := by
  obtain ⟨rs, hrs, -, -⟩ :=
    execute_tool_calls_spec decode selected tcs
      (fun tc ht => by
        have := List.all_eq_true.mp h tc ht
        simpa using this)
  exact ⟨rs, hrs⟩

/-- A well-shaped envelope also passes the loops' display step. -/
theorem displayName_isSome_of_wellShaped (tc : RawToolCall)
    (h : tc.wellShaped = true) : tc.displayName?.isSome = true := by
  obtain ⟨tid, fname, args, rfl⟩ := wellShaped_elim tc h
  rfl

/-- C3: for every list of N tool-call requests (each carrying the id and
function-name fields the claim refers to) and every selected-tools
mapping, `execute_tool_calls` returns exactly N tool-role result
messages; the i-th result's `tool_call_id` equals the i-th request's id
and the i-th result's `name` equals the i-th request's function name, in
matching order. -/
theorem C3_execute_tool_calls_correlated (decode : JsonDecode)
    (selected : SelectedTools) (tcs : List RawToolCall)
    (h : ∀ tc ∈ tcs, tc.wellShaped = true) :
    ∃ rs, execute_tool_calls decode selected tcs = .ok rs ∧
      rs.length = tcs.length ∧
      ∀ i, (h1 : i < tcs.length) → (h2 : i < rs.length) →
        (rs.get ⟨i, h2⟩).role = "tool" ∧
        (tcs.get ⟨i, h1⟩).id? = some (rs.get ⟨i, h2⟩).tool_call_id ∧
        (tcs.get ⟨i, h1⟩).displayName? = some (rs.get ⟨i, h2⟩).name :=
  execute_tool_calls_spec decode selected tcs h

/-- Witness for C3 at a concrete two-request batch. -/
theorem C3_execute_tool_calls_correlated_witness :
    (∀ tc ∈ ([sampleToolCall, sampleToolCall2] : List RawToolCall),
      tc.wellShaped = true) ∧
    ∃ rs, execute_tool_calls oracleDecode oracleSelected
        [sampleToolCall, sampleToolCall2] = .ok rs ∧
      rs.length = ([sampleToolCall, sampleToolCall2] : List RawToolCall).length ∧
      ∀ i, (h1 : i < ([sampleToolCall, sampleToolCall2] : List RawToolCall).length) →
        (h2 : i < rs.length) →
        (rs.get ⟨i, h2⟩).role = "tool" ∧
        (([sampleToolCall, sampleToolCall2] : List RawToolCall).get ⟨i, h1⟩).id? =
          some (rs.get ⟨i, h2⟩).tool_call_id ∧
        (([sampleToolCall, sampleToolCall2] : List RawToolCall).get ⟨i, h1⟩).displayName? =
          some (rs.get ⟨i, h2⟩).name :=
  ⟨by decide,
   C3_execute_tool_calls_correlated oracleDecode oracleSelected
     [sampleToolCall, sampleToolCall2] (by decide)⟩

/-- C7: a single well-shaped request whose arguments string fails to
parse yields an ok tool result whose content is the serialization of an
object with an `error` key; more generally no exception raised inside
the try block (parsing, selection check, handler) escapes the executor
on a well-shaped envelope. -/
theorem C7_malformed_args_absorbed (decode : JsonDecode)
    (selected : SelectedTools) (tid fname argsJson emsg : String)
    (hdec : decode argsJson = .error emsg) :
    (execute_tool_call decode selected ⟨some tid, some ⟨some fname, some argsJson⟩⟩ =
      .ok ⟨"tool", tid, fname,
        .dumped (.obj [("error", .str ("Invalid arguments JSON: " ++ emsg))])⟩) ∧
    ∀ tc : RawToolCall, tc.wellShaped = true →
      ∃ r, execute_tool_call decode selected tc = .ok r := by
  constructor
  · simp [execute_tool_call, toolCallContent, hdec]
  · intro tc h
    obtain ⟨tid2, fname2, args2, -, -, hexec⟩ :=
      execute_tool_call_of_wellShaped decode selected tc h
    exact ⟨_, hexec⟩

/-- Witness for C7 at a concrete unparseable arguments string. -/
theorem C7_malformed_args_absorbed_witness :
    (oracleDecode "bad json" =
      .error "Expecting value: line 1 column 1 (char 0)") ∧
    (execute_tool_call oracleDecode oracleSelected
        ⟨some "call_123", some ⟨some "calculate", some "bad json"⟩⟩ =
      .ok ⟨"tool", "call_123", "calculate",
        .dumped (.obj [("error",
          .str ("Invalid arguments JSON: " ++
            "Expecting value: line 1 column 1 (char 0)"))])⟩) ∧
    ∀ tc : RawToolCall, tc.wellShaped = true →
      ∃ r, execute_tool_call oracleDecode oracleSelected tc = .ok r :=
  ⟨rfl,
   C7_malformed_args_absorbed oracleDecode oracleSelected
     "call_123" "calculate" "bad json"
     "Expecting value: line 1 column 1 (char 0)" rfl⟩

/-- C9: on an envelope missing any of the `id`, `function`, `name` or
`arguments` keys, `execute_tool_call` escapes with a `KeyError` naming
one of those keys (the reads precede the error-absorbing try block)
instead of producing an error-payload tool result. -/
theorem C9_missing_key_raises (decode : JsonDecode) (selected : SelectedTools)
    (tc : RawToolCall) (h : tc.wellShaped = false) :
    ∃ missingKey, execute_tool_call decode selected tc = .error missingKey ∧
      missingKey ∈ (["id", "function", "name", "arguments"] : List String) := by
  obtain ⟨tid?, fn?⟩ := tc
  cases tid? with
  | none => exact ⟨"id", rfl, by simp⟩
  | some tid =>
    cases fn? with
    | none => exact ⟨"function", rfl, by simp⟩
    | some f =>
      obtain ⟨n?, a?⟩ := f
      cases n? with
      | none => exact ⟨"name", rfl, by simp⟩
      | some n =>
        cases a? with
        | none => exact ⟨"arguments", rfl, by simp⟩
        | some a => simp [RawToolCall.wellShaped] at h

/-- Witness for C9 at an envelope lacking the nested `arguments` key. -/
theorem C9_missing_key_raises_witness :
    (RawToolCall.wellShaped ⟨some "call_123", some ⟨some "calculate", none⟩⟩
      = false) ∧
    ∃ missingKey,
      execute_tool_call oracleDecode oracleSelected
        ⟨some "call_123", some ⟨some "calculate", none⟩⟩ = .error missingKey ∧
      missingKey ∈ (["id", "function", "name", "arguments"] : List String) :=
  ⟨rfl,
   C9_missing_key_raises oracleDecode oracleSelected
     ⟨some "call_123", some ⟨some "calculate", none⟩⟩ rfl⟩

/-! ## Keyword-interface claims -/

/-- C1: the claim states the Requesting step's `chat_completion` call,
carrying the tool schemas with streaming disabled, is accepted by the
Transport interface. It is not: `chat_completion` declares no `tools`
parameter, so the keyword call made by both loops raises `TypeError`
before any request is sent; dropping exactly the `tools` keyword would
make the call acceptable. -/
theorem C1_transport_rejects_tools_kwarg :
    pythonCallAccepts chat_completion_params toolLoopRequestKwargs = false ∧
    pythonCallAccepts chat_completion_params
      (toolLoopRequestKwargs.filter (fun k => !(k == "tools"))) = true ∧
    "stream" ∈ chat_completion_params ∧ "tools" ∈ toolLoopRequestKwargs := by
  decide

/-- C8: the claim states a new conversation created with tool use
enabled persists the tool configuration. It cannot: `create_conversation`
declares no `tools_config` parameter, so the keyword call made by the
`chat` command raises `TypeError` (dropping exactly that keyword would
make the call acceptable), and the record it writes has no
`tools_config` key at all. -/
theorem C8_tools_config_not_persisted :
    pythonCallAccepts create_conversation_params chatCreateConversationKwargs
      = false ∧
    pythonCallAccepts create_conversation_params
      (chatCreateConversationKwargs.filter (fun k => !(k == "tools_config")))
      = true ∧
    "tools_config" ∉ conversationRecordKeys := by
  decide

/-! ## Loop step lemmas -/

/-- Stateless loop, one step on a good tool-calls response: the
iteration executes the batch and loops. -/
theorem statelessGo_step_good (T : Transport) (d : JsonDecode)
    (s : SelectedTools) (sp : Bool) (fmt : String → Option String)
    (i r c : Nat) (b : List LoopBranch)
    (h : goodToolCallsResp (T i) = true) :
    statelessGo T d s sp fmt i (r + 1) c b =
      statelessGo T d s sp fmt (i + 1) r (c + 1) (.toolCallsBranch :: b) := by
  unfold goodToolCallsResp at h
  simp only [statelessGo]
  cases hc : (T i).choices? with
  | none => rw [hc] at h; exact absurd h (by simp)
  | some cs =>
    rw [hc] at h
    cases cs with
    | nil => exact absurd h (by simp)
    | cons c0 rest =>
      simp only [Bool.and_eq_true, Bool.not_eq_true', List.all_eq_true] at h
      obtain ⟨hfin, hne, hall⟩ := h
      have hdisp : ((c0.message?.getD ⟨none, none⟩).toolCalls?.getD []).all
          (fun tc => tc.displayName?.isSome) = true := by
        rw [List.all_eq_true]
        intro tc htc
        exact displayName_isSome_of_wellShaped tc (hall tc htc)
      obtain ⟨rs, hrs⟩ := execute_tool_calls_ok_of_all d s
        ((c0.message?.getD ⟨none, none⟩).toolCalls?.getD [])
        (List.all_eq_true.mpr hall)
      simp [hfin, hne, hdisp, hrs]

/-- Stateless loop, one step on the empty-tool-calls anomaly: report and
break (the limit warning after the loop also prints, from `main.py:116`,
since `break` falls through to it). -/
theorem statelessGo_step_empty (T : Transport) (d : JsonDecode)
    (s : SelectedTools) (sp : Bool) (fmt : String → Option String)
    (i r c : Nat) (b : List LoopBranch)
    (h : isEmptyToolCallsResp (T i) = true) :
    statelessGo T d s sp fmt i (r + 1) c b =
      ⟨c + 1, (LoopBranch.toolCallsBranch :: b).reverse, .emptyToolCallsBreak⟩ := by
  unfold isEmptyToolCallsResp at h
  simp only [statelessGo]
  cases hc : (T i).choices? with
  | none => rw [hc] at h; exact absurd h (by simp)
  | some cs =>
    rw [hc] at h
    cases cs with
    | nil => exact absurd h (by simp)
    | cons c0 rest =>
      simp only [Bool.and_eq_true] at h
      obtain ⟨hfin, hne⟩ := h
      simp [hfin, hne]

/-- The chat-variant loop's trace does not depend on the
already-persisted messages; they are only threaded through. -/
theorem chatGo_fst_ignores_saved (T : Transport) (d : JsonDecode)
    (s : SelectedTools) (sp : Bool) (fmt : String → Option String) :
    ∀ (r i c : Nat) (b : List LoopBranch) (saved saved2 : List SavedMsg),
      (chatGo T d s sp fmt i r c b saved).1 =
        (chatGo T d s sp fmt i r c b saved2).1 := by
  intro r
  induction r with
  | zero => intro i c b saved saved2; rfl
  | succ r ih =>
    intro i c b saved saved2
    simp only [chatGo]
    cases hc : (T i).choices? with
    | none => rfl
    | some cs =>
      cases cs with
      | nil => rfl
      | cons c0 rest =>
        cases hfin : (c0.finish? == some "tool_calls") with
        | false => simp [hfin]
        | true =>
          cases hdisp : ((c0.message?.getD ⟨none, none⟩).toolCalls?.getD []).all
              (fun tc => tc.displayName?.isSome) with
          | false => simp [hfin, hdisp]
          | true =>
            cases hex : execute_tool_calls d s
                ((c0.message?.getD ⟨none, none⟩).toolCalls?.getD []) with
            | error e => simp [hfin, hdisp, hex]
            | ok rs => simp only [hfin, hdisp, hex]; simp; exact ih _ _ _ _ _

/-- Chat-variant loop, one step on a good tool-calls response. -/
theorem chatGo_fst_step_good (T : Transport) (d : JsonDecode)
    (s : SelectedTools) (sp : Bool) (fmt : String → Option String)
    (i r c : Nat) (b : List LoopBranch) (saved : List SavedMsg)
    (h : goodToolCallsResp (T i) = true) :
    (chatGo T d s sp fmt i (r + 1) c b saved).1 =
      (chatGo T d s sp fmt (i + 1) r (c + 1) (.toolCallsBranch :: b) saved).1 := by
  unfold goodToolCallsResp at h
  simp only [chatGo]
  cases hc : (T i).choices? with
  | none => rw [hc] at h; exact absurd h (by simp)
  | some cs =>
    rw [hc] at h
    cases cs with
    | nil => exact absurd h (by simp)
    | cons c0 rest =>
      simp only [Bool.and_eq_true, Bool.not_eq_true', List.all_eq_true] at h
      obtain ⟨hfin, hne, hall⟩ := h
      have hdisp : ((c0.message?.getD ⟨none, none⟩).toolCalls?.getD []).all
          (fun tc => tc.displayName?.isSome) = true := by
        rw [List.all_eq_true]
        intro tc htc
        exact displayName_isSome_of_wellShaped tc (hall tc htc)
      obtain ⟨rs, hrs⟩ := execute_tool_calls_ok_of_all d s
        ((c0.message?.getD ⟨none, none⟩).toolCalls?.getD [])
        (List.all_eq_true.mpr hall)
      simp only [hfin, hdisp, hrs]
      simp
      exact chatGo_fst_ignores_saved T d s sp fmt r (i + 1) (c + 1) _ _ _

/-- Chat-variant loop, one step on the empty-tool-calls anomaly: no
check fires; the response message is persisted, zero tool results are
produced, and the loop continues to the next iteration. -/
theorem chatGo_fst_step_empty (T : Transport) (d : JsonDecode)
    (s : SelectedTools) (sp : Bool) (fmt : String → Option String)
    (i r c : Nat) (b : List LoopBranch) (saved : List SavedMsg)
    (h : isEmptyToolCallsResp (T i) = true) :
    (chatGo T d s sp fmt i (r + 1) c b saved).1 =
      (chatGo T d s sp fmt (i + 1) r (c + 1) (.toolCallsBranch :: b) saved).1 := by
  unfold isEmptyToolCallsResp at h
  simp only [chatGo]
  cases hc : (T i).choices? with
  | none => rw [hc] at h; exact absurd h (by simp)
  | some cs =>
    rw [hc] at h
    cases cs with
    | nil => exact absurd h (by simp)
    | cons c0 rest =>
      simp only [Bool.and_eq_true] at h
      obtain ⟨hfin, hne⟩ := h
      have htcs : (c0.message?.getD ⟨none, none⟩).toolCalls?.getD [] = [] := by
        cases hx : (c0.message?.getD ⟨none, none⟩).toolCalls?.getD [] with
        | nil => rfl
        | cons y ys => rw [hx] at hne; simp at hne
      simp only [hfin, htcs]
      simp [execute_tool_calls]
      exact chatGo_fst_ignores_saved T d s sp fmt r (i + 1) (c + 1) _ _ _

/-- Stateless loop against a transport that always answers with a valid
tool-calls response: every iteration takes the tool-calls branch and the
run exhausts the budget. -/
theorem statelessGo_run_good (T : Transport) (d : JsonDecode)
    (s : SelectedTools) (sp : Bool) (fmt : String → Option String)
    (hT : ∀ k, goodToolCallsResp (T k) = true) :
    ∀ (r i c : Nat) (b : List LoopBranch),
      statelessGo T d s sp fmt i r c b =
        ⟨c + r, b.reverse ++ List.replicate r .toolCallsBranch, .maxedOut⟩ := by
  intro r
  induction r with
  | zero => intro i c b; simp [statelessGo]
  | succ r ih =>
    intro i c b
    rw [statelessGo_step_good T d s sp fmt i r c b (hT i), ih (i + 1) (c + 1)]
    simp only [LoopTrace.mk.injEq]
    refine ⟨by omega, ?_, trivial⟩
    simp [List.replicate_succ, List.reverse_cons, List.append_assoc]

/-- Chat-variant analogue of `statelessGo_run_good`. -/
theorem chatGo_fst_run_good (T : Transport) (d : JsonDecode)
    (s : SelectedTools) (sp : Bool) (fmt : String → Option String)
    (hT : ∀ k, goodToolCallsResp (T k) = true) :
    ∀ (r i c : Nat) (b : List LoopBranch) (saved : List SavedMsg),
      (chatGo T d s sp fmt i r c b saved).1 =
        ⟨c + r, b.reverse ++ List.replicate r .toolCallsBranch, .maxedOut⟩ := by
  intro r
  induction r with
  | zero => intro i c b saved; simp [chatGo]
  | succ r ih =>
    intro i c b saved
    rw [chatGo_fst_step_good T d s sp fmt i r c b saved (hT i),
      ih (i + 1) (c + 1)]
    simp only [LoopTrace.mk.injEq]
    refine ⟨by omega, ?_, trivial⟩
    simp [List.replicate_succ, List.reverse_cons, List.append_assoc]

/-- C2: for every `max_iterations ≥ 1`, against a Transport that returns
finish `tool_calls` with a non-empty valid request list on every call,
both loop variants make exactly `max_iterations` Transport calls and
then terminate in the limit-warning outcome (no final answer is
synthesized, no infinite loop). -/
theorem C2_exhaustion (T : Transport) (decode : JsonDecode)
    (selected : SelectedTools) (sp : Bool) (fmt : String → Option String)
    (maxCalls : Nat) (hmax : 1 ≤ maxCalls)
    (hT : ∀ i, goodToolCallsResp (T i) = true) :
    ((run_execute_with_tools T decode selected sp fmt maxCalls).calls = maxCalls ∧
     (run_execute_with_tools T decode selected sp fmt maxCalls).outcome
       = .maxedOut) ∧
    ((run_execute_chat_with_tools T decode selected sp fmt maxCalls).1.calls
       = maxCalls ∧
     (run_execute_chat_with_tools T decode selected sp fmt maxCalls).1.outcome
       = .maxedOut) := by
  have h1 := statelessGo_run_good T decode selected sp fmt hT maxCalls 0 0 []
  have h2 := chatGo_fst_run_good T decode selected sp fmt hT maxCalls 0 0 [] []
  unfold run_execute_with_tools run_execute_chat_with_tools
  rw [h1, h2]
  simp

/-- Witness for C2: a constant valid-tool-calls transport and
`max_iterations = 3`. -/
theorem C2_exhaustion_witness :
    (1 ≤ 3) ∧
    (∀ i : Nat, goodToolCallsResp (constGoodTransport i) = true) ∧
    (((run_execute_with_tools constGoodTransport oracleDecode oracleSelected
        false noFmt 3).calls = 3 ∧
      (run_execute_with_tools constGoodTransport oracleDecode oracleSelected
        false noFmt 3).outcome = .maxedOut) ∧
     ((run_execute_chat_with_tools constGoodTransport oracleDecode
        oracleSelected false noFmt 3).1.calls = 3 ∧
      (run_execute_chat_with_tools constGoodTransport oracleDecode
        oracleSelected false noFmt 3).1.outcome = .maxedOut)) :=
  ⟨by decide, fun i => (by decide : goodToolCallsResp goodResp = true),
   C2_exhaustion constGoodTransport oracleDecode oracleSelected false noFmt 3
     (by decide) (fun i => (by decide : goodToolCallsResp goodResp = true))⟩

/-! ## The empty-tool-calls anomaly (C4) -/

/-- Stateless loop: after a prefix of good tool-calls responses, an
empty-tool-calls response is detected at its iteration: the loop reports
and breaks, having made exactly prefix+1 Transport calls. -/
theorem statelessGo_prefix_then_empty (T : Transport) (d : JsonDecode)
    (s : SelectedTools) (sp : Bool) (fmt : String → Option String) :
    ∀ (j r i c : Nat) (b : List LoopBranch),
      (∀ k, k < j → goodToolCallsResp (T (i + k)) = true) →
      isEmptyToolCallsResp (T (i + j)) = true →
      j < r →
      statelessGo T d s sp fmt i r c b =
        ⟨c + j + 1,
         b.reverse ++ List.replicate (j + 1) .toolCallsBranch,
         .emptyToolCallsBreak⟩ := by
  intro j
  induction j with
  | zero =>
    intro r i c b _ hempty hr
    cases r with
    | zero => exact absurd hr (by omega)
    | succ r0 =>
      rw [statelessGo_step_empty T d s sp fmt i r0 c b (by simpa using hempty)]
      simp
  | succ j ih =>
    intro r i c b hgood hempty hr
    cases r with
    | zero => exact absurd hr (by omega)
    | succ r0 =>
      rw [statelessGo_step_good T d s sp fmt i r0 c b
        (by simpa using hgood 0 (by omega))]
      rw [ih r0 (i + 1) (c + 1) (.toolCallsBranch :: b)
        (fun k hk => by
          have := hgood (k + 1) (by omega)
          simpa [Nat.add_assoc, Nat.add_comm 1 k] using this)
        (by
          have : i + 1 + j = i + (j + 1) := by omega
          rw [this]; exact hempty)
        (by omega)]
      simp only [LoopTrace.mk.injEq]
      refine ⟨by omega, ?_, trivial⟩
      simp [List.replicate_succ, List.reverse_cons, List.append_assoc]

/-- Chat-variant loop against a transport that always answers with the
empty-tool-calls anomaly: no anomaly is ever reported; the loop spins
through every iteration and exhausts the budget. -/
theorem chatGo_fst_run_empty (T : Transport) (d : JsonDecode)
    (s : SelectedTools) (sp : Bool) (fmt : String → Option String)
    (hT : ∀ k, isEmptyToolCallsResp (T k) = true) :
    ∀ (r i c : Nat) (b : List LoopBranch) (saved : List SavedMsg),
      (chatGo T d s sp fmt i r c b saved).1 =
        ⟨c + r, b.reverse ++ List.replicate r .toolCallsBranch, .maxedOut⟩ := by
  intro r
  induction r with
  | zero => intro i c b saved; simp [chatGo]
  | succ r ih =>
    intro i c b saved
    rw [chatGo_fst_step_empty T d s sp fmt i r c b saved (hT i),
      ih (i + 1) (c + 1)]
    simp only [LoopTrace.mk.injEq]
    refine ⟨by omega, ?_, trivial⟩
    simp [List.replicate_succ, List.reverse_cons, List.append_assoc]

/-- Counterexample to C4 as stated: the persisting variant, fed
finish=tool_calls responses with empty request lists and a limit of 2,
makes 2 Transport calls (it spins through a further iteration) and ends
in the limit warning; it never reports the anomaly. -/
theorem C4_counterexample :
    isEmptyToolCallsResp (constEmptyTransport 0) = true ∧
    (run_execute_chat_with_tools constEmptyTransport oracleDecode
      oracleSelected false noFmt 2).1.calls = 2 ∧
    (run_execute_chat_with_tools constEmptyTransport oracleDecode
      oracleSelected false noFmt 2).1.outcome = .maxedOut ∧
    (run_execute_chat_with_tools constEmptyTransport oracleDecode
      oracleSelected false noFmt 2).1.outcome ≠ .emptyToolCallsBreak := by
  decide

/-- C4 amended: when the finish indicator says tool_calls but the
request list is empty, the stateless variant reports the anomaly and
terminates that invocation at that iteration without executing tools;
the persisting variant performs no such check — it treats the response
as a tool-call round with zero results and keeps iterating until the
configured limit. -/
theorem C4_empty_tool_calls_amended (T : Transport) (decode : JsonDecode)
    (selected : SelectedTools) (sp : Bool) (fmt : String → Option String)
    (maxCalls j : Nat) (hj : j < maxCalls)
    (hgood : ∀ k, k < j → goodToolCallsResp (T k) = true)
    (hempty : isEmptyToolCallsResp (T j) = true) :
    ((run_execute_with_tools T decode selected sp fmt maxCalls).outcome
        = .emptyToolCallsBreak ∧
     (run_execute_with_tools T decode selected sp fmt maxCalls).calls = j + 1) ∧
    (∀ T2 : Transport, (∀ k, isEmptyToolCallsResp (T2 k) = true) →
      (run_execute_chat_with_tools T2 decode selected sp fmt maxCalls).1.outcome
          = .maxedOut ∧
      (run_execute_chat_with_tools T2 decode selected sp fmt maxCalls).1.calls
          = maxCalls) := by
  constructor
  · have h := statelessGo_prefix_then_empty T decode selected sp fmt j maxCalls
      0 0 [] (fun k hk => by simpa using hgood k hk) (by simpa using hempty) hj
    unfold run_execute_with_tools
    rw [h]
    simp
  · intro T2 hT2
    have h := chatGo_fst_run_empty T2 decode selected sp fmt hT2 maxCalls 0 0 [] []
    unfold run_execute_chat_with_tools
    rw [h]
    simp

/-- Witness for the amended C4: anomaly on the first response, limit 1. -/
theorem C4_empty_tool_calls_amended_witness :
    (0 < 1) ∧ isEmptyToolCallsResp (constEmptyTransport 0) = true ∧
    (((run_execute_with_tools constEmptyTransport oracleDecode oracleSelected
        false noFmt 1).outcome = .emptyToolCallsBreak ∧
      (run_execute_with_tools constEmptyTransport oracleDecode oracleSelected
        false noFmt 1).calls = 0 + 1) ∧
     (∀ T2 : Transport, (∀ k, isEmptyToolCallsResp (T2 k) = true) →
       (run_execute_chat_with_tools T2 oracleDecode oracleSelected
         false noFmt 1).1.outcome = .maxedOut ∧
       (run_execute_chat_with_tools T2 oracleDecode oracleSelected
         false noFmt 1).1.calls = 1)) :=
  ⟨by decide, by decide,
   C4_empty_tool_calls_amended constEmptyTransport oracleDecode oracleSelected
     false noFmt 1 0 (by decide)
     (fun k hk => absurd hk (Nat.not_lt_zero k))
     (by decide)⟩

/-! ## Agreement of the two loop variants (C5) -/

/-- On benign transports (every tool-calls response non-empty and
well-shaped) the two loop bodies produce identical traces from any
shared intermediate state. -/
theorem statelessGo_eq_chatGo_fst (T : Transport) (d : JsonDecode)
    (s : SelectedTools) (sp : Bool) (fmt : String → Option String)
    (hT : ∀ k, benignResp (T k) = true) :
    ∀ (r i c : Nat) (b : List LoopBranch) (saved : List SavedMsg),
      statelessGo T d s sp fmt i r c b =
        (chatGo T d s sp fmt i r c b saved).1 := by
  intro r
  induction r with
  | zero => intro i c b saved; rfl
  | succ r ih =>
    intro i c b saved
    have hb := hT i
    unfold benignResp at hb
    simp only [statelessGo, chatGo]
    cases hc : (T i).choices? with
    | none => simp
    | some cs =>
      rw [hc] at hb
      cases cs with
      | nil => simp
      | cons c0 rest =>
        cases hfin : (c0.finish? == some "tool_calls") with
        | false => simp [hfin]
        | true =>
          simp only [hfin, if_true] at hb
          simp only [Bool.and_eq_true, Bool.not_eq_true', List.all_eq_true] at hb
          obtain ⟨hne, hall⟩ := hb
          have hdisp : ((c0.message?.getD ⟨none, none⟩).toolCalls?.getD []).all
              (fun tc => tc.displayName?.isSome) = true := by
            rw [List.all_eq_true]
            intro tc htc
            exact displayName_isSome_of_wellShaped tc (hall tc htc)
          obtain ⟨rs, hrs⟩ := execute_tool_calls_ok_of_all d s
            ((c0.message?.getD ⟨none, none⟩).toolCalls?.getD [])
            (List.all_eq_true.mpr hall)
          simp only [hfin, hne, hdisp, hrs]
          simp
          exact ih (i + 1) (c + 1) _ _

/-- Counterexample to C5 as stated: on a transport always returning
finish=tool_calls with an empty request list (limit 2), the stateless
variant makes 1 Transport call while the persisting variant makes 2,
and the traces differ. -/
theorem C5_counterexample :
    (run_execute_with_tools constEmptyTransport oracleDecode oracleSelected
      false noFmt 2).calls = 1 ∧
    (run_execute_chat_with_tools constEmptyTransport oracleDecode
      oracleSelected false noFmt 2).1.calls = 2 ∧
    run_execute_with_tools constEmptyTransport oracleDecode oracleSelected
      false noFmt 2 ≠
      (run_execute_chat_with_tools constEmptyTransport oracleDecode
        oracleSelected false noFmt 2).1 := by
  decide

/-- C5 amended: the two variants implement identical iteration logic on
every run in which each tool-calls response carries a non-empty list of
well-shaped requests — same number of Transport calls, same branch at
each step, same outcome. (They diverge exactly on the empty-tool-calls
anomaly, which only the stateless variant detects.) -/
theorem C5_variants_agree_amended (T : Transport) (decode : JsonDecode)
    (selected : SelectedTools) (sp : Bool) (fmt : String → Option String)
    (maxCalls : Nat) (hT : ∀ k, benignResp (T k) = true) :
    run_execute_with_tools T decode selected sp fmt maxCalls =
      (run_execute_chat_with_tools T decode selected sp fmt maxCalls).1 :=
  statelessGo_eq_chatGo_fst T decode selected sp fmt hT maxCalls 0 0 [] []

/-- Witness for the amended C5: one tool-call round then a final
answer. -/
theorem C5_variants_agree_amended_witness :
    (∀ k, benignResp (twoStepTransport k) = true) ∧
    run_execute_with_tools twoStepTransport oracleDecode oracleSelected
      false noFmt 5 =
      (run_execute_chat_with_tools twoStepTransport oracleDecode
        oracleSelected false noFmt 5).1 := by
  have hT : ∀ k, benignResp (twoStepTransport k) = true := by
    intro k
    cases k with
    | zero => decide
    | succ n =>
      exact (by decide : benignResp (finalResp "The answer is 4.") = true)
  exact ⟨hT, C5_variants_agree_amended twoStepTransport oracleDecode
    oracleSelected false noFmt 5 hT⟩

/-! ## Final-answer persistence in the chat variant (C10) -/

/-- Whenever the chat-variant loop ends in a final answer, the displayed
string is the schema-driven formatting of the raw content, and the last
message persisted to the conversation is the assistant message carrying
the raw content unchanged. -/
theorem chatGo_final_characterization (T : Transport) (d : JsonDecode)
    (s : SelectedTools) (sp : Bool) (fmt : String → Option String) :
    ∀ (r i c : Nat) (b : List LoopBranch) (saved : List SavedMsg)
      (raw displayed : String),
      (chatGo T d s sp fmt i r c b saved).1.outcome
        = .finalAnswer raw displayed →
      displayed = displayedContent sp fmt raw ∧
      (chatGo T d s sp fmt i r c b saved).2.getLast?
        = some (.assistantFinal raw) := by
  intro r
  induction r with
  | zero =>
    intro i c b saved raw displayed h
    simp [chatGo] at h
  | succ r ih =>
    intro i c b saved raw displayed h
    cases hc : (T i).choices? with
    | none =>
      simp only [chatGo, hc] at h
      simp at h
    | some cs =>
      cases cs with
      | nil =>
        simp only [chatGo, hc] at h
        simp at h
      | cons c0 rest =>
        cases hfin : (c0.finish? == some "tool_calls") with
        | true =>
          cases hdisp : ((c0.message?.getD ⟨none, none⟩).toolCalls?.getD []).all
              (fun tc => tc.displayName?.isSome) with
          | false =>
            simp only [chatGo, hc, hfin, hdisp] at h
            simp at h
          | true =>
            cases hex : execute_tool_calls d s
                ((c0.message?.getD ⟨none, none⟩).toolCalls?.getD []) with
            | error e =>
              simp only [chatGo, hc, hfin, hdisp, hex] at h
              simp at h
            | ok rs =>
              simp only [chatGo, hc, hfin, hdisp, hex] at h ⊢
              simp only [Bool.true_eq_false, if_true] at h ⊢
              exact ih (i + 1) (c + 1) _ _ raw displayed h
        | false =>
          simp only [chatGo, hc, hfin] at h ⊢
          simp only [Bool.false_eq_true, if_false] at h ⊢
          obtain ⟨hraw, hdispl⟩ :
              (c0.message?.getD ⟨none, none⟩).content?.getD "" = raw ∧
              displayedContent sp fmt
                ((c0.message?.getD ⟨none, none⟩).content?.getD "") = displayed := by
            injection h with h1 h2
            exact ⟨h1, h2⟩
          subst hraw
          subst hdispl
          refine ⟨rfl, ?_⟩
          simp

/-- C10: in the persisting loop variant with a schema configured, when
the final assistant content parses as structured data, the pretty form
is only displayed; the assistant message appended to the conversation
store keeps the original raw content string unchanged. -/
theorem C10_persisted_content_raw (T : Transport) (decode : JsonDecode)
    (selected : SelectedTools) (fmt : String → Option String)
    (maxCalls : Nat) (raw displayed pretty : String)
    (hout : (run_execute_chat_with_tools T decode selected true fmt
        maxCalls).1.outcome = .finalAnswer raw displayed)
    (hfmt : fmt raw = some pretty) (hraw : raw ≠ "") :
    displayed = pretty ∧
    (run_execute_chat_with_tools T decode selected true fmt maxCalls).2.getLast?
      = some (.assistantFinal raw) := by
  obtain ⟨hdisp, hsaved⟩ := chatGo_final_characterization T decode selected
    true fmt maxCalls 0 0 [] [] raw displayed hout
  refine ⟨?_, hsaved⟩
  rw [hdisp]
  unfold displayedContent
  have hne : (raw == "") = false := by
    cases hx : raw == "" with
    | false => rfl
    | true => exact absurd (by simpa using hx) hraw
  simp [hne, hfmt]

/-- Witness for C10: a final-only transport with structured content. -/
theorem C10_persisted_content_raw_witness :
    ((run_execute_chat_with_tools finalOnlyTransport oracleDecode
        oracleSelected true prettyFmt 1).1.outcome
      = .finalAnswer "[1]" "[\n  1\n]") ∧
    prettyFmt "[1]" = some "[\n  1\n]" ∧ ("[1]" : String) ≠ "" ∧
    (("[\n  1\n]" : String) = "[\n  1\n]" ∧
     (run_execute_chat_with_tools finalOnlyTransport oracleDecode
        oracleSelected true prettyFmt 1).2.getLast?
       = some (.assistantFinal "[1]")) :=
  ⟨rfl, rfl, by decide,
   C10_persisted_content_raw finalOnlyTransport oracleDecode oracleSelected
     prettyFmt 1 "[1]" "[\n  1\n]" "[\n  1\n]" rfl rfl (by decide)⟩

/-! ## Tool selection (C6) -/

/-- A dict assignment on an existing key rewrites the value in place and
leaves the key sequence unchanged. -/
theorem map_fst_update {α : Type} (l : List (String × α)) (k : String) (v : α) :
    (l.map (fun p => if p.1 == k then (k, v) else p)).map Prod.fst =
      l.map Prod.fst := by
  induction l with
  | nil => rfl
  | cons p ps ih =>
    simp only [List.map_cons, ih, List.cons.injEq, and_true]
    by_cases h : (p.1 == k) = true
    · rw [if_pos h]
      exact (beq_iff_eq.mp h).symm
    · rw [if_neg h]

/-- Key membership after a dict assignment. -/
theorem mem_dictInsert_map_fst {α : Type} (l : List (String × α)) (k : String)
    (v : α) (k2 : String) :
    k2 ∈ (dictInsert l k v).map Prod.fst ↔ k2 ∈ l.map Prod.fst ∨ k2 = k := by
  unfold dictInsert
  by_cases h : (l.any (fun p => p.1 == k)) = true
  · rw [if_pos h, map_fst_update]
    constructor
    · exact Or.inl
    · rintro (hm | rfl)
      · exact hm
      · rw [List.any_eq_true] at h
        obtain ⟨p, hp, hbeq⟩ := h
        rw [List.mem_map]
        exact ⟨p, hp, beq_iff_eq.mp hbeq⟩
  · rw [if_neg h]
    simp [List.mem_append]

/-- Every entry after a dict assignment is an old entry or the assigned
pair. -/
theorem mem_dictInsert {α : Type} (l : List (String × α)) (k : String) (v : α)
    (p : String × α) (hp : p ∈ dictInsert l k v) : p ∈ l ∨ p = (k, v) := by
  unfold dictInsert at hp
  by_cases h : (l.any (fun q => q.1 == k)) = true
  · rw [if_pos h] at hp
    rw [List.mem_map] at hp
    obtain ⟨q, hq, hqe⟩ := hp
    by_cases hb : (q.1 == k) = true
    · rw [if_pos hb] at hqe
      exact Or.inr hqe.symm
    · rw [if_neg hb] at hqe
      exact Or.inl (hqe ▸ hq)
  · rw [if_neg h] at hp
    rcases List.mem_append.mp hp with h1 | h2
    · exact Or.inl h1
    · simp at h2
      exact Or.inr h2

/-- The selection loop on a list of known names: succeeds with exactly
the accumulated and requested names, every selected entry taken from
the registry. -/
theorem selectNames_ok (tools : List (String × ToolDef)) :
    ∀ (names : List String) (acc : List (String × ToolDef)),
      (∀ n ∈ names, (tools.lookup n).isSome = true) →
      ∃ sel, selectNames tools names acc = .ok sel ∧
        (∀ k, k ∈ sel.map Prod.fst ↔ k ∈ acc.map Prod.fst ∨ k ∈ names) ∧
        (∀ p ∈ sel, p ∈ acc ∨ tools.lookup p.1 = some p.2) := by
  intro names
  induction names with
  | nil =>
    intro acc _
    exact ⟨acc, rfl, fun k => by simp, fun p hp => Or.inl hp⟩
  | cons n rest ih =>
    intro acc hall
    have hn := hall n (List.mem_cons_self n rest)
    cases hl : tools.lookup n with
    | none => rw [hl] at hn; simp at hn
    | some d =>
      obtain ⟨sel, hsel, hkeys, hvals⟩ :=
        ih (dictInsert acc n d) (fun m hm => hall m (List.mem_cons_of_mem n hm))
      refine ⟨sel, ?_, ?_, ?_⟩
      · simp only [selectNames, hl]
        exact hsel
      · intro k
        rw [hkeys k, mem_dictInsert_map_fst]
        constructor
        · rintro ((hm | heq) | hr)
          · exact Or.inl hm
          · subst heq
            exact Or.inr (List.mem_cons_self _ _)
          · exact Or.inr (List.mem_cons_of_mem n hr)
        · rintro (hm | hr)
          · exact Or.inl (Or.inl hm)
          · rcases List.mem_cons.mp hr with rfl | hr2
            · exact Or.inl (Or.inr rfl)
            · exact Or.inr hr2
      · intro p hp
        rcases hvals p hp with hacc | hlook
        · rcases mem_dictInsert acc n d p hacc with h1 | h2
          · exact Or.inl h1
          · refine Or.inr ?_
            rw [h2]
            exact hl
        · exact Or.inr hlook

/-- The selection loop fails at the first unknown name with the
enumerating error message, regardless of what was selected so far. -/
theorem selectNames_err (tools : List (String × ToolDef)) :
    ∀ (pre : List String) (n : String) (post : List String)
      (acc : List (String × ToolDef)),
      (∀ m ∈ pre, (tools.lookup m).isSome = true) →
      tools.lookup n = none →
      selectNames tools (pre ++ n :: post) acc =
        .error (unknownToolMsg tools n) := by
  intro pre
  induction pre with
  | nil =>
    intro n post acc _ hn
    simp only [List.nil_append, selectNames, hn]
  | cons m pre ih =>
    intro n post acc hall hn
    have hm := hall m (List.mem_cons_self m pre)
    cases hl : tools.lookup m with
    | none => rw [hl] at hm; simp at hm
    | some d =>
      simp only [List.cons_append, selectNames, hl]
      exact ih n post (dictInsert acc m d)
        (fun x hx => hall x (List.mem_cons_of_mem m hx)) hn

/-- C6: `select_tools` over the loaded registry. The literal token "all"
returns every registered tool (a result of the full registry size); a
comma-separated list whose names all exist returns exactly the named
tools, with each entry taken from the registry; the first unknown name
fails the whole call (no partial selection) with the error message that
enumerates every valid registered name. -/
theorem C6_select_tools (spec : String) :
    (select_tools registry_tools "all" = .ok registry_tools ∧
      registry_tools.length = 5) ∧
    (spec ≠ "all" →
      ((∀ n ∈ parseToolSpec spec, (registry_tools.lookup n).isSome = true) →
        ∃ sel, select_tools registry_tools spec = .ok sel ∧
          (∀ k, k ∈ sel.map Prod.fst ↔ k ∈ parseToolSpec spec) ∧
          (∀ p ∈ sel, registry_tools.lookup p.1 = some p.2)) ∧
      (∀ pre n post, parseToolSpec spec = pre ++ n :: post →
        (∀ m ∈ pre, (registry_tools.lookup m).isSome = true) →
        registry_tools.lookup n = none →
        select_tools registry_tools spec =
          .error (unknownToolMsg registry_tools n))) ∧
    (∀ m ∈ registry_tools.map Prod.fst,
      m ∈ sortStrings (registry_tools.map Prod.fst)) := by
  refine ⟨⟨by simp [select_tools], by decide⟩, ?_, by decide⟩
  intro hne
  have hb : (spec == "all") = false := beq_eq_false_iff_ne.mpr hne
  constructor
  · intro hnames
    obtain ⟨sel, hsel, hkeys, hvals⟩ :=
      selectNames_ok registry_tools (parseToolSpec spec) [] hnames
    refine ⟨sel, ?_, ?_, ?_⟩
    · simp only [select_tools, hb]
      simp only [Bool.false_eq_true, if_false]
      exact hsel
    · intro k
      rw [hkeys k]
      simp
    · intro p hp
      rcases hvals p hp with h1 | h2
      · simp at h1
      · exact h2
  · intro pre n post hsplit hpre hn
    simp only [select_tools, hb]
    simp only [Bool.false_eq_true, if_false]
    rw [hsplit]
    exact selectNames_err registry_tools pre n post [] hpre hn

/-- Witness for C6: a known two-name list and the unknown name
"frobnicate". -/
theorem C6_select_tools_witness :
    ("write_file,calculate" ≠ "all") ∧
    (∀ n ∈ parseToolSpec "write_file,calculate",
      (registry_tools.lookup n).isSome = true) ∧
    (∃ sel, select_tools registry_tools "write_file,calculate" = .ok sel ∧
      (∀ k, k ∈ sel.map Prod.fst ↔ k ∈ parseToolSpec "write_file,calculate") ∧
      (∀ p ∈ sel, registry_tools.lookup p.1 = some p.2)) ∧
    (parseToolSpec "frobnicate" = [] ++ "frobnicate" :: []) ∧
    registry_tools.lookup "frobnicate" = none ∧
    select_tools registry_tools "frobnicate" =
      .error (unknownToolMsg registry_tools "frobnicate") := by
  refine ⟨by decide, by decide, ?_, by decide, by decide, ?_⟩
  · exact ((C6_select_tools "write_file,calculate").2.1 (by decide)).1 (by decide)
  · exact ((C6_select_tools "frobnicate").2.1 (by decide)).2 [] "frobnicate" []
      (by decide) (by decide) (by decide)

end HermesCLI
